import Mathlib

/-!
Verification of `convert.py` from the mela-to-paprika-converter repository.

The Python source is shallowly embedded: each Python function is translated
into an executable Lean definition over `List Char` / `String`, with the
dynamic aspects made explicit:

* JSON field access (`dict.get`) on the source record is modeled by
  `StrField` / `ListField` (a field can be absent from the document, present
  with a JSON `null`, or present with a value of its declared type);
* `uuid.uuid4()` and `datetime.now()` are modeled as injected parameters
  (an index-to-string generator for the per-record calls);
* the filesystem (temporary directory, bundle file) is modeled as explicit
  state threaded through the batch orchestrator, and a raised I/O exception
  during the gzip write of one record is modeled by a per-record oracle flag.

Python string operations (`str.strip`, `str.title`, `str.split`,
`str.rstrip`, the regex `[^\w\s-]`, `json.dumps(..., ensure_ascii=False)`)
are reproduced character by character for the ASCII character classes that
the corresponding Python (unicode) classes restrict to on ASCII text.
-/

namespace MelaPaprika

/-- Python's whitespace class for `str.strip` and the regex class `\s`
(ASCII part): space, tab, newline, carriage return, vertical tab, form feed. -/
def isPySpace (c : Char) : Bool :=
  c == ' ' || c == '\t' || c == '\n' || c == '\r' ||
  c == Char.ofNat 11 || c == Char.ofNat 12

/-- The regex class `\w` (ASCII part): alphanumerics and underscore. -/
def isWordChar (c : Char) : Bool :=
  c.isAlphanum || c == '_'

/-- `str.strip()` on a character list: drop leading and trailing whitespace. -/
def pyStripList (l : List Char) : List Char :=
  ((l.dropWhile isPySpace).reverse.dropWhile isPySpace).reverse

/-- Python `str.strip()`. -/
def pyStrip (s : String) : String :=
  String.mk (pyStripList s.toList)

/-- `clean_text` (convert.py lines 20-24): `None` and the empty string map to
`""`; any other string is stripped.  The argument is `Option String` because
the Python parameter is `str | None`. -/
def clean_text (text : Option String) : String :=
  match text with
  | none => ""
  | some s => if s = "" then "" else pyStrip s

/-- `parse_time` (convert.py lines 27-31): same falsy check and strip. -/
def parse_time (time_str : Option String) : String :=
  match time_str with
  | none => ""
  | some s => if s = "" then "" else pyStrip s

/-- A string-typed field of the parsed source JSON document: the key can be
absent, present with JSON `null`, or present with a string. -/
inductive StrField where
  | absent
  | null
  | val (s : String)
deriving DecidableEq

/-- A list-typed field of the parsed source JSON document. -/
inductive ListField where
  | absent
  | null
  | val (l : List String)
deriving DecidableEq

/-- Python `dict.get(key, default)` at a string-typed key: an absent key
yields the default, a `null` value yields `None`, a string yields itself. -/
def StrField.get : StrField → String → Option String
  | .absent, d => some d
  | .null, _ => none
  | .val s, _ => some s

/-- Python `dict.get(key)` (default `None`) at a string-typed key. -/
def StrField.getNoneD : StrField → Option String
  | .absent => none
  | .null => none
  | .val s => some s

/-- Python `dict.get(key, [])` at a list-typed key. -/
def ListField.get : ListField → Option (List String)
  | .absent => some []
  | .null => none
  | .val l => some l

/-- Python truthiness of a `str | None` value: `None` and `""` are falsy. -/
def optTruthy : Option String → Bool
  | none => false
  | some s => s != ""

/-- Python `X or []` applied to a `list | None` value. -/
def listOrEmpty : Option (List String) → List String
  | none => []
  | some l => if l = [] then [] else l

/-- One parsed Mela source record (the fields `mela_to_paprika` consults).
`yieldText` stands for the source key `"yield"`. -/
structure MelaRecipe where
  title : StrField := .absent
  text : StrField := .absent
  link : StrField := .absent
  ingredients : StrField := .absent
  instructions : StrField := .absent
  yieldText : StrField := .absent
  prepTime : StrField := .absent
  cookTime : StrField := .absent
  totalTime : StrField := .absent
  notes : StrField := .absent
  nutrition : StrField := .absent
  categories : ListField := .absent
  images : ListField := .absent
deriving DecidableEq

/-- Python `str.rstrip("/")`: drop trailing slashes. -/
def rstripSlashes (l : List Char) : List Char :=
  (l.reverse.dropWhile (fun c => c == '/')).reverse

/-- Python `str.split("/")`: split at every slash, keeping empty segments;
the empty string yields `[[]]`, as in Python. -/
def splitSlash : List Char → List (List Char)
  | [] => [[]]
  | c :: cs =>
    match splitSlash cs with
    | [] => [[]]
    | seg :: rest => if c == '/' then [] :: seg :: rest else (c :: seg) :: rest

/-- Python `list[-1]` on the (never empty) result of a split. -/
def lastSegment (l : List Char) : List Char :=
  (splitSlash l).getLastD []

/-- Python `str.title()` (ASCII): a letter is uppercased when the previous
character is not a letter and lowercased otherwise; other characters pass
through and reset the word state. -/
def pyTitleGo : Bool → List Char → List Char
  | _, [] => []
  | prevCased, c :: cs =>
    if c.isAlpha then
      (if prevCased then c.toLower else c.toUpper) :: pyTitleGo true cs
    else
      c :: pyTitleGo false cs

/-- Python `str.title()`. -/
def pyTitle (s : String) : String :=
  String.mk (pyTitleGo false s.toList)

/-- The link-derived name (convert.py line 61):
`link.rstrip("/").split("/")[-1].replace("-", " ").replace("_", " ").title()`. -/
def linkDerivedName (link : String) : String :=
  pyTitle (String.mk ((lastSegment (rstripSlashes link.toList)).map
    (fun c => if c == '-' then ' ' else if c == '_' then ' ' else c)))

/-- Name resolution in `mela_to_paprika` (convert.py lines 55-63). -/
def resolveName (m : MelaRecipe) : String :=
  let name := clean_text (m.title.get "")
  if name = "" then
    let link := m.link.get ""
    if optTruthy link then linkDerivedName (link.getD "")
    else "Untitled Recipe"
  else name

/-- A JSON value occurring in the produced Paprika record. -/
inductive PVal where
  | str (s : String)
  | num (n : Nat)
  | nullv
  | arr (l : List String)
deriving DecidableEq

/-- `mela_to_paprika` (convert.py lines 39-97), with `generate_uid()` and
`datetime.now().strftime(...)` injected as the parameters `uid` and
`created`.  The output dictionary is modeled as the key/value list in
insertion order.  (The Python local `description` is computed from the
`text` field and never used; it does not appear in the output.) -/
def mela_to_paprika (uid created : String) (m : MelaRecipe) :
    List (String × PVal) :=
  let name := resolveName m
  let base : List (String × PVal) :=
    [("uid", .str uid),
     ("name", .str name),
     ("ingredients", .str (clean_text (m.ingredients.get ""))),
     ("directions", .str (clean_text (m.instructions.get ""))),
     ("servings", .str (clean_text (m.yieldText.get ""))),
     ("prep_time", .str (parse_time m.prepTime.getNoneD)),
     ("cook_time", .str (parse_time m.cookTime.getNoneD)),
     ("total_time", .str (parse_time m.totalTime.getNoneD)),
     ("notes", .str (clean_text (m.notes.get ""))),
     ("nutritional_info", .str (clean_text (m.nutrition.get ""))),
     ("categories", .arr (listOrEmpty m.categories.get)),
     ("rating", .num 0),
     ("difficulty", .nullv),
     ("source", .str (clean_text (m.link.get ""))),
     ("source_url", .str (clean_text (m.link.get ""))),
     ("created", .str created),
     ("image_url", .nullv),
     ("photo_hash", .nullv),
     ("photo", .nullv)]
  base ++
    match m.images.get with
    | some (img :: _) => [("photo_data", .str img)]
    | _ => []

/-- `recipe["name"]` on a produced record (total on the model; the mapper
always emits the key). -/
def recipeName (r : List (String × PVal)) : String :=
  match r.lookup "name" with
  | some (.str s) => s
  | _ => ""

/-- The character class kept by `re.sub(r'[^\w\s-]', '', ...)`
(convert.py line 120). -/
def keepChar (c : Char) : Bool :=
  isWordChar c || isPySpace c || c == '-'

/-- The sanitized base name before the emptiness fallback
(convert.py line 120): `re.sub(r'[^\w\s-]', '', name).strip().replace(" ", "_")`. -/
def safe_name_base (name : String) : String :=
  String.mk ((pyStripList (name.toList.filter keepChar)).map
    (fun c => if c == ' ' then '_' else c))

/-- The sanitized filename base with the fallback of convert.py lines 121-122
(`if not safe_name: safe_name = "recipe"`). -/
def safe_name (name : String) : String :=
  let base := safe_name_base name
  if base = "" then "recipe" else base

/-- The single-record filename of convert.py line 124: the sanitized name
followed by the single-record extension. -/
def paprikaFileNameOf (name : String) : String :=
  safe_name name ++ ".paprikarecipe"

/-- Splitting a character list at every character satisfying `p`, keeping
empty segments (so that joining the segments with a one-character separator
is exactly per-character replacement). -/
def splitOnPred (p : Char → Bool) : List Char → List (List Char)
  | [] => [[]]
  | c :: cs =>
    match splitOnPred p cs with
    | [] => [[]]
    | seg :: rest => if p c then [] :: seg :: rest else (c :: seg) :: rest

/-- Joining segments with a separator. -/
def joinWith (sep : List Char) : List (List Char) → List Char
  | [] => []
  | [x] => x
  | x :: y :: rest => x ++ sep ++ joinWith sep (y :: rest)

/-- Claim C1's sanitization, written from the claim's words: strip every
character that is not alphanumeric, underscore, whitespace, or hyphen; trim;
replace each internal run of whitespace with one underscore; fall back to
the placeholder when empty. -/
def claimC1SanitizedName (name : String) : String :=
  let words :=
    (splitOnPred isPySpace (pyStripList (name.toList.filter keepChar))).filter
      (fun seg => seg ≠ [])
  let base := String.mk (joinWith ['_'] words)
  if base = "" then "recipe" else base

/-- The amended sanitization, written from the amended claim's words: strip
every character that is not alphanumeric, underscore, whitespace, or hyphen;
trim; replace each remaining space character with one underscore (other
whitespace characters are left unchanged); fall back to the placeholder when
empty. -/
def amendedSanitizedName (name : String) : String :=
  let base :=
    String.mk (joinWith ['_']
      (splitOnPred (fun c => c == ' ') (pyStripList (name.toList.filter keepChar))))
  if base = "" then "recipe" else base

/-- A JSON value of the source document, at the type shapes the schema
declares (strings and string lists, possibly `null`). -/
inductive MVal where
  | nullv
  | str (s : String)
  | arr (l : List String)
deriving DecidableEq

/-- The parsed source JSON object as a key/value list (the Python dict that
`json.load` hands to `mela_to_paprika`; keys are unique in a dict, lookup
takes the first occurrence). -/
abbrev MelaDict := List (String × MVal)

/-- Reading one string-typed field out of the raw dict.  A value of the
wrong shape is rejected (`none`): on such input the Python code leaves the
modeled schema (`clean_text` would raise on a list argument). -/
def melaStrField (d : MelaDict) (k : String) : Option StrField :=
  match d.lookup k with
  | none => some .absent
  | some .nullv => some .null
  | some (.str s) => some (.val s)
  | some (.arr _) => none

/-- Reading one list-typed field out of the raw dict. -/
def melaListField (d : MelaDict) (k : String) : Option ListField :=
  match d.lookup k with
  | none => some .absent
  | some .nullv => some .null
  | some (.arr l) => some (.val l)
  | some (.str _) => none

/-- The source keys `mela_to_paprika` consults (convert.py lines 55-92). -/
def recognizedKeys : List String :=
  ["title", "text", "link", "ingredients", "instructions", "yield",
   "prepTime", "cookTime", "totalTime", "notes", "nutrition",
   "categories", "images"]

/-- The schema view of a raw source dict: each recognized key is read with
`dict.get` semantics; every other key is never consulted. -/
def melaOfDict (d : MelaDict) : Option MelaRecipe := do
  let title ← melaStrField d "title"
  let text ← melaStrField d "text"
  let link ← melaStrField d "link"
  let ingredients ← melaStrField d "ingredients"
  let instructions ← melaStrField d "instructions"
  let yieldText ← melaStrField d "yield"
  let prepTime ← melaStrField d "prepTime"
  let cookTime ← melaStrField d "cookTime"
  let totalTime ← melaStrField d "totalTime"
  let notes ← melaStrField d "notes"
  let nutrition ← melaStrField d "nutrition"
  let categories ← melaListField d "categories"
  let images ← melaListField d "images"
  pure { title := title, text := text, link := link,
         ingredients := ingredients, instructions := instructions,
         yieldText := yieldText, prepTime := prepTime, cookTime := cookTime,
         totalTime := totalTime, notes := notes, nutrition := nutrition,
         categories := categories, images := images }

/-- The nineteen keys every produced record carries, in insertion order
(convert.py lines 69-89). -/
def paprikaBaseKeys : List String :=
  ["uid", "name", "ingredients", "directions", "servings", "prep_time",
   "cook_time", "total_time", "notes", "nutritional_info", "categories",
   "rating", "difficulty", "source", "source_url", "created", "image_url",
   "photo_hash", "photo"]

/-- Whether the source record carries at least one image (the truthiness
test of convert.py line 93). -/
def hasImages (m : MelaRecipe) : Bool :=
  match m.images.get with
  | some (_ :: _) => true
  | _ => false

/-! ### `json.dumps(recipe, ensure_ascii=False)` and its inverse

`json.dumps` with default separators emits `{"k": v, "k2": v2}` with `", "`
between members and `": "` after keys.  With `ensure_ascii=False` only `"`,
`\` and the C0 control characters are escaped (`\b \f \n \r \t` named, the
rest as `\u00xx` with lowercase hex); every other character, non-ASCII
included, is emitted verbatim.  The parser below models the `json.loads`
side of the round trip for the value shapes the converter produces. -/

/-- The escape of one character inside a JSON string literal. -/
def escChar (c : Char) : List Char :=
  if c = '"' then ['\\', '"']
  else if c = '\\' then ['\\', '\\']
  else if c = '\n' then ['\\', 'n']
  else if c = '\t' then ['\\', 't']
  else if c = '\r' then ['\\', 'r']
  else if c.toNat = 8 then ['\\', 'b']
  else if c.toNat = 12 then ['\\', 'f']
  else if c.toNat < 32 then
    ['\\', 'u', '0', '0', Nat.digitChar (c.toNat / 16), Nat.digitChar (c.toNat % 16)]
  else [c]

/-- A JSON string literal. -/
def dumpString (s : String) : List Char :=
  '"' :: (s.toList.flatMap escChar ++ ['"'])

/-- A JSON value as emitted by `json.dumps`. -/
def dumpVal : PVal → List Char
  | .str s => dumpString s
  | .num n => (Nat.repr n).toList
  | .nullv => ['n', 'u', 'l', 'l']
  | .arr l => '[' :: (joinWith [',', ' '] (l.map dumpString) ++ [']'])

/-- One `"key": value` member. -/
def dumpMember (kv : String × PVal) : List Char :=
  dumpString kv.1 ++ [':', ' '] ++ dumpVal kv.2

/-- The serialized record: `json.dumps(recipe, ensure_ascii=False)`
(convert.py line 128). -/
def jsonDumps (r : List (String × PVal)) : String :=
  String.mk ('{' :: (joinWith [',', ' '] (r.map dumpMember) ++ ['}']))

/-- The inverse of a named escape character. -/
def escUnmap (c : Char) : Option Char :=
  if c = '"' then some '"'
  else if c = '\\' then some '\\'
  else if c = '/' then some '/'
  else if c = 'b' then some (Char.ofNat 8)
  else if c = 'f' then some (Char.ofNat 12)
  else if c = 'n' then some '\n'
  else if c = 'r' then some '\r'
  else if c = 't' then some '\t'
  else none

/-- The value of a hexadecimal digit. -/
def unhex (c : Char) : Option Nat :=
  if '0' ≤ c ∧ c ≤ '9' then some (c.toNat - 48)
  else if 'a' ≤ c ∧ c ≤ 'f' then some (c.toNat - 87)
  else if 'A' ≤ c ∧ c ≤ 'F' then some (c.toNat - 55)
  else none

/-- Parsing the body of a string literal (after the opening quote), up to
and including the closing quote; returns the decoded characters and the
remaining input. -/
def parseStringBody : List Char → Option (List Char × List Char)
  | [] => none
  | c :: rest =>
    if c = '"' then some ([], rest)
    else if c = '\\' then
      match rest with
      | [] => none
      | e :: rest2 =>
        if e = 'u' then
          match rest2 with
          | h1 :: h2 :: h3 :: h4 :: rest3 =>
            match unhex h1, unhex h2, unhex h3, unhex h4, parseStringBody rest3 with
            | some a, some b, some hc, some d, some (s, r) =>
              some (Char.ofNat (((a * 16 + b) * 16 + hc) * 16 + d) :: s, r)
            | _, _, _, _, _ => none
          | _ => none
        else
          match escUnmap e, parseStringBody rest2 with
          | some hc, some (s, r) => some (hc :: s, r)
          | _, _ => none
    else
      match parseStringBody rest with
      | some (s, r) => some (c :: s, r)
      | none => none

/-- Parsing the elements of a non-empty array of strings, after the opening
bracket; the fuel only bounds the number of elements. -/
def parseElems : Nat → List Char → Option (List String × List Char)
  | 0, _ => none
  | fuel + 1, cs =>
    match cs with
    | '"' :: rest =>
      match parseStringBody rest with
      | some (s, r) =>
        match r with
        | ',' :: ' ' :: r2 =>
          match parseElems fuel r2 with
          | some (l, rr) => some (String.mk s :: l, rr)
          | none => none
        | ']' :: r2 => some ([String.mk s], r2)
        | _ => none
      | none => none
    | _ => none

/-- Parsing one JSON value of the shapes the converter emits. -/
def parseVal (cs : List Char) : Option (PVal × List Char) :=
  match cs with
  | [] => none
  | c :: rest =>
    if c = '"' then
      match parseStringBody rest with
      | some (s, r) => some (.str (String.mk s), r)
      | none => none
    else if c = 'n' then
      match rest with
      | 'u' :: 'l' :: 'l' :: r => some (.nullv, r)
      | _ => none
    else if c = '[' then
      match rest with
      | ']' :: r => some (.arr [], r)
      | _ =>
        match parseElems rest.length rest with
        | some (l, r) => some (.arr l, r)
        | none => none
    else if c.isDigit then
      some (.num ((c :: rest.takeWhile Char.isDigit).foldl
        (fun a d => a * 10 + (d.toNat - 48)) 0), rest.dropWhile Char.isDigit)
    else none

/-- Parsing the members of a non-empty object, after the opening brace; the
fuel only bounds the number of members. -/
def parseMembers : Nat → List Char → Option (List (String × PVal) × List Char)
  | 0, _ => none
  | fuel + 1, cs =>
    match cs with
    | '"' :: rest =>
      match parseStringBody rest with
      | some (k, r) =>
        match r with
        | ':' :: ' ' :: r2 =>
          match parseVal r2 with
          | some (v, r3) =>
            match r3 with
            | ',' :: ' ' :: r4 =>
              match parseMembers fuel r4 with
              | some (ps, rr) => some ((String.mk k, v) :: ps, rr)
              | none => none
            | '}' :: r4 => some ([(String.mk k, v)], r4)
            | _ => none
          | none => none
        | _ => none
      | none => none
    | _ => none

/-- Parsing a whole serialized record (`json.loads` for the emitted shape):
succeeds only when the input is consumed entirely. -/
def jsonLoads (s : String) : Option (List (String × PVal)) :=
  match s.toList with
  | '{' :: '}' :: rest => if rest = [] then some [] else none
  | '{' :: rest =>
    match parseMembers rest.length rest with
    | some (r, []) => some r
    | _ => none
  | _ => none

/-! ### The gzip layer

`gzip` is an external lossless codec (Python's `gzip` module); only its
round-trip contract is visible to this program, so a compressed file is
modeled by the text it decompresses to. -/

/-- A gzip-compressed text file, modeled by its decompressed content. -/
structure GzipFile where
  content : String
deriving DecidableEq

/-- `gzip.open(path, 'wt').write(text)` (convert.py lines 131-132). -/
def gzipCompress (s : String) : GzipFile := ⟨s⟩

/-- Decompressing and decoding a gzip file. -/
def gzipDecompress (g : GzipFile) : String := g.content

/-- The content `create_paprika_file` writes for a record
(convert.py lines 127-132). -/
def create_paprika_file_content (r : List (String × PVal)) : GzipFile :=
  gzipCompress (jsonDumps r)

/-! ### The batch orchestrator `convert_mela_to_paprika`

The filesystem is modeled explicitly: the temporary directory is a
name-to-content association list with overwrite-on-write semantics, the
bundle is the list of (archive name, content) entries `zipfile` writes, and
a raised `OSError` during the gzip write of one record is a per-record
oracle flag on the input file.  `try`/`finally` is embedded by computing the
body's outcome as a value and then applying the cleanup to every branch. -/

/-- The characters of a file name after its last dot, when that dot is not
the leading character (the way `pathlib.PurePath.suffix` locates it). -/
def afterLastDot : List Char → Option (List Char)
  | [] => none
  | c :: cs =>
    match afterLastDot cs with
    | some r => some r
    | none => if c == '.' then some cs else none

/-- `pathlib.Path.suffix` of a base file name: the final `"."`-led
extension, empty when the only dot leads the name. -/
def pathSuffix (name : String) : String :=
  match name.toList with
  | [] => ""
  | _ :: rest =>
    match afterLastDot rest with
    | some r => String.mk ('.' :: r)
    | none => ""

/-- `pathlib.Path.stem`: the base name without its suffix. -/
def pathStem (name : String) : String :=
  String.mk (name.toList.take (name.toList.length - (pathSuffix name).toList.length))

/-- Whether a file name ends with the given extension (the way the glob
pattern star-dot-melarecipe matches a base name). -/
def nameEndsWith (name suffix : String) : Bool :=
  suffix.toList.reverse.isPrefixOf name.toList.reverse

/-- One candidate input file: its base name, the result of
`read_mela_file` (`none` models a JSON parse error, reported and skipped),
and whether the gzip write for this record raises an `OSError`. -/
structure SrcFile where
  name : String
  parsed : Option MelaRecipe
  ioFail : Bool
deriving DecidableEq

/-- The orchestrator's input: a single file, a directory listing, or a
missing path. -/
inductive InputPath where
  | file (f : SrcFile)
  | dir (entries : List SrcFile)
  | missing

/-- Input discovery (convert.py lines 191-205): a single file must carry
the `.melarecipe` suffix; a directory contributes its `*.melarecipe`
entries and fails on zero matches; `none` models the `return None` paths. -/
def discover : InputPath → Option (List SrcFile)
  | .file f =>
    if pathSuffix f.name = ".melarecipe" then some [f] else none
  | .dir entries =>
    let melaFiles := entries.filter (fun f => nameEndsWith f.name ".melarecipe")
    if melaFiles = [] then none else some melaFiles
  | .missing => none

/-- Writing a file into the temporary directory: an existing file of the
same name is overwritten, otherwise the file is created. -/
def writeTemp (t : List (String × String)) (n c : String) :
    List (String × String) :=
  match t with
  | [] => [(n, c)]
  | (k, v) :: rest =>
    if k = n then (k, c) :: rest else (k, v) :: writeTemp rest n c

/-- The loop state of convert.py lines 210-221: the temporary directory's
contents, the `paprika_files` list (file names in append order, duplicates
kept), and how many records have been mapped (the index into the injected
uid/timestamp generators). -/
structure LoopState where
  temp : List (String × String)
  paths : List String
  idx : Nat
deriving DecidableEq

/-- The per-record loop (convert.py lines 211-221).  A file whose parse
failed is skipped (`continue`); for a parsed record the mapper runs and
`create_paprika_file` writes `safe_name(name).paprikarecipe` into the
temporary directory — an `OSError` raised there (the `ioFail` oracle)
propagates, carrying the temporary contents written so far. -/
def encodeLoop (uid created : Nat → String) :
    List SrcFile → LoopState → Except (List (String × String)) LoopState
  | [], st => .ok st
  | f :: rest, st =>
    match f.parsed with
    | none => encodeLoop uid created rest st
    | some m =>
      if f.ioFail then .error st.temp
      else
        let pr := mela_to_paprika (uid st.idx) (created st.idx) m
        let fname := paprikaFileNameOf (recipeName pr)
        encodeLoop uid created rest
          { temp := writeTemp st.temp fname (jsonDumps pr),
            paths := st.paths ++ [fname],
            idx := st.idx + 1 }

/-- The default bundle base name (convert.py lines 149-155): the sole
record's stem for a single file, otherwise the `%Y%m%d_%H%M%S` timestamp
(injected as `stamp`). -/
def bundleNameFor (paths : List String) (stamp : String) : String :=
  match paths with
  | [p] => pathStem p
  | _ => stamp

/-- `create_paprika_bundle` with no explicit name (convert.py lines
137-165): the ZIP receives one entry per element of `paprika_files`, each
read from the temporary directory at assembly time. -/
def create_paprika_bundle (paths : List String)
    (temp : List (String × String)) (stamp : String) :
    String × List (String × String) :=
  (bundleNameFor paths stamp ++ ".paprikarecipes",
   paths.map (fun p => (p, (temp.lookup p).getD "")))

/-- The observable outcome of the orchestrator's `try` body, before the
`finally` block runs: the returned value (`Except.error` models a
propagated exception), the bundle written to the output directory, and the
temporary directory's contents at that point. -/
structure BodyOutcome where
  result : Except Unit (Option String)
  bundle : Option (String × List (String × String))
  temp : List (String × String)

/-- The `try` body of `convert_mela_to_paprika` (convert.py lines
189-232). -/
def convertBody (uid created : Nat → String) (stamp : String)
    (input : InputPath) : BodyOutcome :=
  match discover input with
  | none => ⟨.ok none, none, []⟩
  | some files =>
    match encodeLoop uid created files ⟨[], [], 0⟩ with
    | .error t => ⟨.error (), none, t⟩
    | .ok st =>
      if st.paths = [] then ⟨.ok none, none, st.temp⟩
      else
        let b := create_paprika_bundle st.paths st.temp stamp
        ⟨.ok (some b.1), some b, st.temp⟩

/-- The outcome after the `finally` block: `tempFinal = none` means the
temporary directory has been removed. -/
structure ConvertOutcome where
  result : Except Unit (Option String)
  bundle : Option (String × List (String × String))
  tempFinal : Option (List (String × String))

/-- The `finally` block (convert.py lines 234-237): the temporary directory
is removed whatever the body produced. -/
def applyFinally (b : BodyOutcome) : ConvertOutcome :=
  ⟨b.result, b.bundle, none⟩

/-- `convert_mela_to_paprika` (convert.py lines 168-237): body under
`try`, then the guaranteed cleanup. -/
def convert_mela_to_paprika (uid created : Nat → String) (stamp : String)
    (input : InputPath) : ConvertOutcome :=
  applyFinally (convertBody uid created stamp input)

/-! ### Concrete fixtures used by witnesses and counterexamples -/

/-- The name resolution as the amended claim C2 words it: the trimmed title
when non-empty; otherwise, when the link is a non-empty string, its final
path segment (after stripping trailing slashes) with hyphens and
underscores replaced by spaces and title-cased; otherwise the placeholder. -/
def claimC2ResolvedName (m : MelaRecipe) : String :=
  let t := match m.title with
    | .val s => pyStrip s
    | _ => ""
  if t ≠ "" then t
  else
    match m.link with
    | .val s => if s ≠ "" then linkDerivedName s else "Untitled Recipe"
    | _ => "Untitled Recipe"

/-- Value shapes occurring in converter output: the only number it ever
emits is the literal rating `0`. -/
def ValOk : PVal → Prop
  | .num n => n = 0
  | _ => True

/-- A list whose head, if any, is not a decimal digit. -/
def headNotDigit : List Char → Prop
  | [] => True
  | c :: _ => c.isDigit = false

/-- A source record whose link consists only of slashes (title absent). -/
def slashLinkRecipe : MelaRecipe := { link := .val "/" }

/-- A two-valued uid generator for concrete batches. -/
def uidW : Nat → String := fun n => if n = 0 then "U0" else "U1"

/-- A two-valued timestamp generator for concrete batches. -/
def createdW : Nat → String := fun n => if n = 0 then "T0" else "T1"

/-- First colliding record: named Chili, notes FIRST. -/
def chiliFirst : MelaRecipe := { title := .val "Chili", notes := .val "FIRST" }

/-- Second colliding record: named Chili, notes SECOND. -/
def chiliSecond : MelaRecipe := { title := .val "Chili", notes := .val "SECOND" }

/-- A raw source dict with one recognized key and one unrecognized key. -/
def dictWithJunk : MelaDict := [("title", .str "Pie"), ("unrelated", .str "x")]

/-- The schema view of `dictWithJunk`. -/
def pieRecipe : MelaRecipe := { title := .val "Pie" }

/-- A source record with a non-ASCII title. -/
def cremeRecipe : MelaRecipe := { title := .val "Crème brûlée" }

/-! ## Theorems -/

/-- The produced record's `name` entry holds exactly the resolved name. -/
theorem recipeName_mela_to_paprika (u c : String) (m : MelaRecipe) :
    recipeName (mela_to_paprika u c m) = resolveName m := rfl

/-- C9: for every Source Record, the mapped Target Record contains the
`photo_data` key exactly when the source's image list is present and
non-empty, in which case its value is the first image string verbatim;
with zero images the key is entirely absent (never present with `null`). -/
theorem claim_C9_photo_data (uid created : String) (m : MelaRecipe) :
    ((mela_to_paprika uid created m).lookup "photo_data" =
      match m.images.get with
      | some (img :: _) => some (PVal.str img)
      | _ => none) ∧
    (("photo_data" ∈ (mela_to_paprika uid created m).map Prod.fst) ↔
      hasImages m = true) := by
  rcases hm : m.images with _ | _ | (_ | ⟨img, l⟩) <;>
    simp [mela_to_paprika, hasImages, ListField.get, hm, List.lookup]

/-- C7: the mapper is total (it is a Lean function on every schema-shaped
source record), and a string field that is absent, `null`, or empty yields
the empty string in the corresponding output field, while an absent,
`null`, or empty category list yields the empty list, and absent or `null`
images leave `photo_data` out.  Stated over an arbitrary record `m` with
the field replaced by each degraded shape. -/
theorem claim_C7_mapper_total_degradation (u c : String) (m : MelaRecipe)
    (f : StrField) (hf : f = .absent ∨ f = .null ∨ f = .val "")
    (g : ListField) (hg : g = .absent ∨ g = .null ∨ g = .val []) :
    (mela_to_paprika u c { m with ingredients := f }).lookup "ingredients" =
      some (PVal.str "") ∧
    (mela_to_paprika u c { m with instructions := f }).lookup "directions" =
      some (PVal.str "") ∧
    (mela_to_paprika u c { m with yieldText := f }).lookup "servings" =
      some (PVal.str "") ∧
    (mela_to_paprika u c { m with prepTime := f }).lookup "prep_time" =
      some (PVal.str "") ∧
    (mela_to_paprika u c { m with cookTime := f }).lookup "cook_time" =
      some (PVal.str "") ∧
    (mela_to_paprika u c { m with totalTime := f }).lookup "total_time" =
      some (PVal.str "") ∧
    (mela_to_paprika u c { m with notes := f }).lookup "notes" =
      some (PVal.str "") ∧
    (mela_to_paprika u c { m with nutrition := f }).lookup "nutritional_info" =
      some (PVal.str "") ∧
    (mela_to_paprika u c { m with link := f }).lookup "source" =
      some (PVal.str "") ∧
    (mela_to_paprika u c { m with link := f }).lookup "source_url" =
      some (PVal.str "") ∧
    (mela_to_paprika u c { m with categories := g }).lookup "categories" =
      some (PVal.arr []) ∧
    (mela_to_paprika u c { m with images := g }).lookup "photo_data" = none := by
  rcases hf with rfl | rfl | rfl <;> rcases hg with rfl | rfl | rfl <;>
    exact ⟨rfl, rfl, rfl, rfl, rfl, rfl, rfl, rfl, rfl, rfl, rfl, rfl⟩

/-- C7 witness: the theorem applied to the all-default record with `null`
field values. -/
theorem claim_C7_witness :
    (mela_to_paprika "U" "T"
      { ({} : MelaRecipe) with ingredients := StrField.null }).lookup
        "ingredients" = some (PVal.str "") :=
  (claim_C7_mapper_total_degradation "U" "T" {} StrField.null
    (Or.inr (Or.inl rfl)) ListField.null (Or.inr (Or.inl rfl))).1

/-- C6: on every exit path of the orchestrator — success, batch failure
with no result, or a propagated exception — the temporary working area is
removed before control returns (the `finally` block runs last on each
path), and the cleanup changes neither the returned value nor the bundle. -/
theorem claim_C6_cleanup_every_path (uid created : Nat → String)
    (stamp : String) (input : InputPath) :
    (convert_mela_to_paprika uid created stamp input).tempFinal = none ∧
    (convert_mela_to_paprika uid created stamp input).result =
      (convertBody uid created stamp input).result ∧
    (convert_mela_to_paprika uid created stamp input).bundle =
      (convertBody uid created stamp input).bundle :=
  ⟨rfl, rfl, rfl⟩

/-- C4: invoking the orchestrator on a single file without the source
extension, or on a directory with zero matching files, yields no result
(`ok none`), creates no bundle anywhere, and performs no partial work (the
body never writes a temporary file), with the temporary area removed. -/
theorem claim_C4_discovery_failure (uid created : Nat → String)
    (stamp : String) (f : SrcFile) (es : List SrcFile) :
    (pathSuffix f.name ≠ ".melarecipe" →
      convertBody uid created stamp (.file f) = ⟨.ok none, none, []⟩ ∧
      (convert_mela_to_paprika uid created stamp (.file f)).result = .ok none ∧
      (convert_mela_to_paprika uid created stamp (.file f)).bundle = none) ∧
    (es.filter (fun g => nameEndsWith g.name ".melarecipe") = [] →
      convertBody uid created stamp (.dir es) = ⟨.ok none, none, []⟩ ∧
      (convert_mela_to_paprika uid created stamp (.dir es)).result = .ok none ∧
      (convert_mela_to_paprika uid created stamp (.dir es)).bundle = none) := by
  constructor
  · intro h
    have hb : convertBody uid created stamp (.file f) = ⟨.ok none, none, []⟩ := by
      simp [convertBody, discover, h]
    exact ⟨hb, by simp [convert_mela_to_paprika, applyFinally, hb],
      by simp [convert_mela_to_paprika, applyFinally, hb]⟩
  · intro h
    have hb : convertBody uid created stamp (.dir es) = ⟨.ok none, none, []⟩ := by
      simp [convertBody, discover, h]
    exact ⟨hb, by simp [convert_mela_to_paprika, applyFinally, hb],
      by simp [convert_mela_to_paprika, applyFinally, hb]⟩

/-- C4 witness: a `.txt` file and a directory holding only a `.pdf`. -/
theorem claim_C4_witness :
    convertBody uidW createdW "S" (.file ⟨"recipe.txt", none, false⟩) =
      ⟨.ok none, none, []⟩ ∧
    convertBody uidW createdW "S" (.dir [⟨"notes.pdf", none, false⟩]) =
      ⟨.ok none, none, []⟩ :=
  ⟨((claim_C4_discovery_failure uidW createdW "S" ⟨"recipe.txt", none, false⟩
      [⟨"notes.pdf", none, false⟩]).1 (by decide)).1,
   ((claim_C4_discovery_failure uidW createdW "S" ⟨"recipe.txt", none, false⟩
      [⟨"notes.pdf", none, false⟩]).2 (by decide)).1⟩

/-- Filtering an association list to a key set commutes with looking up a
key of that set. -/
theorem lookup_filter_keys {β : Type} (ks : List String)
    (d : List (String × β)) (k : String) (hk : ks.contains k = true) :
    (d.filter (fun kv => ks.contains kv.1)).lookup k = d.lookup k := by
  induction d with
  | nil => rfl
  | cons kv rest ih =>
    obtain ⟨k1, v1⟩ := kv
    by_cases hkv : ks.contains k1 = true
    · rw [show List.filter (fun kv => ks.contains kv.1) ((k1, v1) :: rest) =
          (k1, v1) :: List.filter (fun kv => ks.contains kv.1) rest from by
            rw [List.filter_cons, if_pos hkv]]
      simp only [List.lookup]
      cases h : k == k1
      · exact ih
      · rfl
    · have hne : (k == k1) = false := by
        cases h : k == k1
        · rfl
        · exact absurd ((beq_iff_eq.mp h) ▸ hk) hkv
      rw [show List.filter (fun kv => ks.contains kv.1) ((k1, v1) :: rest) =
          List.filter (fun kv => ks.contains kv.1) rest from by
            rw [List.filter_cons, if_neg hkv]]
      simp only [List.lookup, hne]
      exact ih

/-- Dropping unrecognized keys from the raw source dict does not change its
schema view. -/
theorem melaOfDict_filter_recognized (d : MelaDict) :
    melaOfDict (d.filter (fun kv => recognizedKeys.contains kv.1)) =
      melaOfDict d := by
  unfold melaOfDict melaStrField melaListField
  rw [lookup_filter_keys recognizedKeys d "title" (by decide),
    lookup_filter_keys recognizedKeys d "text" (by decide),
    lookup_filter_keys recognizedKeys d "link" (by decide),
    lookup_filter_keys recognizedKeys d "ingredients" (by decide),
    lookup_filter_keys recognizedKeys d "instructions" (by decide),
    lookup_filter_keys recognizedKeys d "yield" (by decide),
    lookup_filter_keys recognizedKeys d "prepTime" (by decide),
    lookup_filter_keys recognizedKeys d "cookTime" (by decide),
    lookup_filter_keys recognizedKeys d "totalTime" (by decide),
    lookup_filter_keys recognizedKeys d "notes" (by decide),
    lookup_filter_keys recognizedKeys d "nutrition" (by decide),
    lookup_filter_keys recognizedKeys d "categories" (by decide),
    lookup_filter_keys recognizedKeys d "images" (by decide)]

/-- C10: for every schema-shaped source dict, the produced record's key
list is exactly the nineteen fixed keys, plus `photo_data` exactly when the
source has images; keys outside the recognized source fields have no
effect (the filtered dict has the same schema view, hence the same
output); and `image_url`, `photo_hash`, `photo` always hold `null`. -/
theorem claim_C10_key_set (uid created : String) (d : MelaDict)
    (m : MelaRecipe) (h : melaOfDict d = some m) :
    (mela_to_paprika uid created m).map Prod.fst =
      paprikaBaseKeys ++ (if hasImages m then ["photo_data"] else []) ∧
    melaOfDict (d.filter (fun kv => recognizedKeys.contains kv.1)) = some m ∧
    (mela_to_paprika uid created m).lookup "image_url" = some PVal.nullv ∧
    (mela_to_paprika uid created m).lookup "photo_hash" = some PVal.nullv ∧
    (mela_to_paprika uid created m).lookup "photo" = some PVal.nullv := by
  refine ⟨?_, by rw [melaOfDict_filter_recognized]; exact h, ?_, ?_, ?_⟩ <;>
    rcases hm : m.images with _ | _ | (_ | ⟨img, l⟩) <;>
      simp [mela_to_paprika, hasImages, ListField.get, hm, List.lookup,
        paprikaBaseKeys]

/-- C10 witness: a dict carrying the unrecognized key `unrelated`. -/
theorem claim_C10_witness :
    melaOfDict (dictWithJunk.filter
      (fun kv => recognizedKeys.contains kv.1)) = some pieRecipe :=
  (claim_C10_key_set "U" "T" dictWithJunk pieRecipe (by decide)).2.1

/-- Splitting never yields an empty segment list. -/
theorem splitOnPred_ne_nil (p : Char → Bool) (l : List Char) :
    splitOnPred p l ≠ [] := by
  cases l with
  | nil => simp [splitOnPred]
  | cons c cs =>
    simp only [splitOnPred]
    rcases splitOnPred p cs with _ | ⟨seg, rest⟩
    · simp
    · by_cases h : p c = true <;> simp [h]

/-- Prepending a character to the first segment prepends it to the join. -/
theorem joinWith_cons_head (sep : List Char) (x : Char) (seg : List Char)
    (rest : List (List Char)) :
    joinWith sep ((x :: seg) :: rest) = x :: joinWith sep (seg :: rest) := by
  cases rest with
  | nil => rfl
  | cons r rs => simp [joinWith]

/-- Joining the space-split segments with underscores is exactly replacing
each space by an underscore. -/
theorem joinWith_splitOnPred_space (l : List Char) :
    joinWith ['_'] (splitOnPred (fun c => c == ' ') l) =
      l.map (fun c => if c == ' ' then '_' else c) := by
  induction l with
  | nil => rfl
  | cons c cs ih =>
    rcases hsp : splitOnPred (fun c => c == ' ') cs with _ | ⟨seg, rest⟩
    · exact absurd hsp (splitOnPred_ne_nil _ cs)
    · rw [hsp] at ih
      by_cases hc : (c == ' ') = true
      · simp only [splitOnPred, hsp, hc, if_true, List.map_cons]
        rw [show joinWith ['_'] ([] :: seg :: rest) =
            '_' :: joinWith ['_'] (seg :: rest) from rfl, ih]
      · simp only [splitOnPred, hsp, hc, if_false, Bool.false_eq_true,
          List.map_cons]
        rw [joinWith_cons_head, ih]

/-- C1 counterexample: on the name `"A  B"` (two internal spaces) the
code's sanitized base is `"A__B"`, while the claimed
collapse-runs-to-one-underscore rule yields `"A_B"`. -/
theorem claim_C1_counterexample :
    safe_name "A  B" ≠ claimC1SanitizedName "A  B" := by decide

/-- C1 (amended): the encoded filename's base strips every character that
is not alphanumeric, underscore, whitespace, or hyphen, trims, and then
replaces each remaining space character with one underscore (a run of n
spaces becomes n underscores; other whitespace characters are kept); if
this yields the empty string the placeholder base is used. -/
theorem claim_C1_sanitize_amended (name : String) :
    safe_name name = amendedSanitizedName name ∧
    paprikaFileNameOf name = amendedSanitizedName name ++ ".paprikarecipe" := by
  have hbase : safe_name_base name =
      String.mk (joinWith ['_'] (splitOnPred (fun c => c == ' ')
        (pyStripList (name.toList.filter keepChar)))) := by
    rw [safe_name_base, joinWith_splitOnPred_space]
  have h1 : safe_name name = amendedSanitizedName name := by
    rw [safe_name, amendedSanitizedName, hbase]
  exact ⟨h1, by rw [paprikaFileNameOf, h1]⟩

/-- `clean_text` on a present string is just the strip (stripping the empty
string is the empty string). -/
theorem clean_text_some (s : String) : clean_text (some s) = pyStrip s := by
  rw [clean_text]
  by_cases h : s = ""
  · rw [if_pos h, h]; rfl
  · rw [if_neg h]

/-- Building a string from characters yields the empty string only for the
empty list. -/
theorem mk_eq_empty_iff (l : List Char) : String.mk l = "" ↔ l = [] :=
  ⟨fun h => congrArg String.data h, fun h => by rw [h]⟩

/-- Title-casing never changes emptiness. -/
theorem pyTitleGo_eq_nil_iff (b : Bool) (l : List Char) :
    pyTitleGo b l = [] ↔ l = [] := by
  cases l with
  | nil => simp [pyTitleGo]
  | cons c cs => simp only [pyTitleGo]; split <;> simp

/-- The link-derived name is empty exactly when the link's final path
segment (after stripping trailing slashes) is empty. -/
theorem linkDerivedName_eq_empty_iff (s : String) :
    linkDerivedName s = "" ↔ lastSegment (rstripSlashes s.toList) = [] := by
  rw [linkDerivedName, pyTitle,
    show (String.mk ((lastSegment (rstripSlashes s.toList)).map
      (fun c => if c == '-' then ' ' else if c == '_' then ' ' else c))).toList =
      (lastSegment (rstripSlashes s.toList)).map
        (fun c => if c == '-' then ' ' else if c == '_' then ' ' else c) from rfl,
    mk_eq_empty_iff, pyTitleGo_eq_nil_iff, List.map_eq_nil_iff]

/-- The code's link branch agrees with the claim's wording of it. -/
theorem link_branch_eq (lk : StrField) :
    (if optTruthy (lk.get "") then linkDerivedName ((lk.get "").getD "")
     else "Untitled Recipe") =
      (match lk with
       | .val s => if s ≠ "" then linkDerivedName s else "Untitled Recipe"
       | _ => "Untitled Recipe") := by
  rcases lk with _ | _ | s
  · rfl
  · rfl
  · by_cases hs : s = ""
    · subst hs; rfl
    · have ht : optTruthy ((StrField.val s).get "") = true := by
        simp [StrField.get, optTruthy, bne_iff_ne, hs]
      rw [if_pos ht]
      show linkDerivedName s =
        if s ≠ "" then linkDerivedName s else "Untitled Recipe"
      rw [if_pos hs]

/-- The code's name resolution agrees with the claim's wording of it. -/
theorem resolveName_eq_claimC2 (m : MelaRecipe) :
    resolveName m = claimC2ResolvedName m := by
  obtain ⟨t, tx, lk, ing, ins, y, pt, ct, tt, no, nu, cat, im⟩ := m
  rcases t with _ | _ | s
  · exact link_branch_eq lk
  · exact link_branch_eq lk
  · by_cases hs0 : s = ""
    · subst hs0; exact link_branch_eq lk
    · show (if clean_text (some s) = "" then
          (if optTruthy (StrField.get lk "") then
            linkDerivedName ((StrField.get lk "").getD "")
          else "Untitled Recipe")
        else clean_text (some s)) =
        (if pyStrip s ≠ "" then pyStrip s
         else match lk with
           | .val s2 => if s2 ≠ "" then linkDerivedName s2
             else "Untitled Recipe"
           | _ => "Untitled Recipe")
      rw [clean_text_some]
      by_cases hps : pyStrip s = ""
      · rw [if_pos hps, if_neg (not_not_intro hps)]
        exact link_branch_eq lk
      · rw [if_neg hps, if_pos hps]

/-- C2 counterexample: a source record with no title and link `"/"` maps to
a Target Record whose name is the empty string, violating the claimed
non-emptiness invariant. -/
theorem claim_C2_counterexample :
    recipeName (mela_to_paprika "U" "T" slashLinkRecipe) = "" := rfl

/-- C2 (amended): the name is resolved in the claimed order — trimmed
title; else, for a non-empty link, the link-derived name (final path
segment after stripping trailing slashes, hyphens and underscores to
spaces, title-cased); else the placeholder — and it is non-empty except
when it comes from a link whose final path segment is empty (a link of
slashes only, such as `"/"`), in which case it is the empty string. -/
theorem claim_C2_name_amended (u c : String) (m : MelaRecipe) :
    recipeName (mela_to_paprika u c m) = claimC2ResolvedName m ∧
    (recipeName (mela_to_paprika u c m) = "" ↔
      clean_text (m.title.get "") = "" ∧ optTruthy (m.link.get "") = true ∧
      lastSegment (rstripSlashes ((m.link.get "").getD "").toList) = []) := by
  refine ⟨by rw [recipeName_mela_to_paprika, resolveName_eq_claimC2], ?_⟩
  rw [recipeName_mela_to_paprika, resolveName]
  by_cases h1 : clean_text (m.title.get "") = ""
  · rw [if_pos h1]
    by_cases h2 : optTruthy (m.link.get "") = true
    · rw [if_pos h2, linkDerivedName_eq_empty_iff]
      simp [h1, h2]
    · rw [if_neg h2]
      simp [h2, show ("Untitled Recipe" : String) ≠ "" from by decide]
  · rw [if_neg h1]
    simp [h1]

/-- C3 counterexample: in a two-file batch whose first record parses but
fails during the gzip encode, the whole conversion aborts with a propagated
error and no bundle at all — the second record is not encoded and
assembled, contrary to the claim that only the failing record is skipped. -/
theorem claim_C3_counterexample :
    (convert_mela_to_paprika uidW createdW "S"
      (.dir [⟨"a.melarecipe", some chiliFirst, true⟩,
             ⟨"b.melarecipe", some chiliSecond, false⟩])).result =
      Except.error () ∧
    (convert_mela_to_paprika uidW createdW "S"
      (.dir [⟨"a.melarecipe", some chiliFirst, true⟩,
             ⟨"b.melarecipe", some chiliSecond, false⟩])).bundle = none :=
  ⟨rfl, rfl⟩

/-- C3 (amended): a record whose document fails to parse is skipped and the
batch continues (the loop behaves exactly as if unparseable files were not
there); but an unexpected error while encoding a record is not absorbed —
the loop raises (aborting the batch) precisely when some record that parses
has a failing encode. -/
theorem claim_C3_parse_skip_encode_abort (uid created : Nat → String)
    (files : List SrcFile) (st : LoopState) :
    encodeLoop uid created files st =
      encodeLoop uid created (files.filter (fun f => f.parsed.isSome)) st ∧
    ((∃ t, encodeLoop uid created files st = .error t) ↔
      ∃ f ∈ files, f.parsed.isSome = true ∧ f.ioFail = true) := by
  constructor
  · induction files generalizing st with
    | nil => rfl
    | cons f rest ih =>
      rcases hp : f.parsed with _ | m
      · have hdrop : f.parsed.isSome = false := by rw [hp]; rfl
        simp only [List.filter_cons, hdrop, Bool.false_eq_true, if_false,
          encodeLoop, hp]
        exact ih st
      · have hkeep : f.parsed.isSome = true := by rw [hp]; rfl
        simp only [List.filter_cons, hkeep, if_true, encodeLoop, hp]
        cases hio : f.ioFail
        · simp only [Bool.false_eq_true, if_false]
          exact ih _
        · simp only [if_true]
  · induction files generalizing st with
    | nil => simp [encodeLoop]
    | cons f rest ih =>
      rcases hp : f.parsed with _ | m
      · simp only [encodeLoop, hp]
        rw [ih st]
        simp [hp]
      · cases hio : f.ioFail
        · simp only [encodeLoop, hp, hio, Bool.false_eq_true, if_false]
          rw [ih _]
          simp [hp, hio]
        · simp only [encodeLoop, hp, hio, if_true]
          constructor
          · intro _
            exact ⟨f, List.mem_cons_self f rest, by rw [hp]; rfl, hio⟩
          · intro _
            exact ⟨st.temp, rfl⟩

/-- C5: in a two-record batch whose names sanitize to the same base name,
the second record's encoded file overwrites the first in the temporary
area, so the assembled bundle carries the later record's encoded content in
every entry and the earlier record's content (when it differs) does not
survive into the bundle. -/
theorem claim_C5_collision_last_writer_wins (uid created : Nat → String)
    (stamp n1 n2 : String) (m1 m2 : MelaRecipe)
    (h1 : nameEndsWith n1 ".melarecipe" = true)
    (h2 : nameEndsWith n2 ".melarecipe" = true)
    (hcol : safe_name (resolveName m1) = safe_name (resolveName m2))
    (hne : jsonDumps (mela_to_paprika (uid 0) (created 0) m1) ≠
      jsonDumps (mela_to_paprika (uid 1) (created 1) m2)) :
    (convert_mela_to_paprika uid created stamp
      (.dir [⟨n1, some m1, false⟩, ⟨n2, some m2, false⟩])).bundle =
      some (stamp ++ ".paprikarecipes",
        [(paprikaFileNameOf (resolveName m2),
          jsonDumps (mela_to_paprika (uid 1) (created 1) m2)),
         (paprikaFileNameOf (resolveName m2),
          jsonDumps (mela_to_paprika (uid 1) (created 1) m2))]) ∧
    jsonDumps (mela_to_paprika (uid 0) (created 0) m1) ∉
      [jsonDumps (mela_to_paprika (uid 1) (created 1) m2),
       jsonDumps (mela_to_paprika (uid 1) (created 1) m2)] := by
  have hfn : paprikaFileNameOf (resolveName m1) =
      paprikaFileNameOf (resolveName m2) := by
    rw [paprikaFileNameOf, paprikaFileNameOf, hcol]
  have hloop : encodeLoop uid created
      [⟨n1, some m1, false⟩, ⟨n2, some m2, false⟩] ⟨[], [], 0⟩ =
      .ok ⟨[(paprikaFileNameOf (resolveName m2),
             jsonDumps (mela_to_paprika (uid 1) (created 1) m2))],
           [paprikaFileNameOf (resolveName m2),
            paprikaFileNameOf (resolveName m2)], 2⟩ := by
    show Except.ok
        (LoopState.mk
          (writeTemp (writeTemp [] (paprikaFileNameOf (resolveName m1))
            (jsonDumps (mela_to_paprika (uid 0) (created 0) m1)))
            (paprikaFileNameOf (resolveName m2))
            (jsonDumps (mela_to_paprika (uid 1) (created 1) m2)))
          [paprikaFileNameOf (resolveName m1), paprikaFileNameOf (resolveName m2)]
          2) = _
    rw [hfn]
    rw [show writeTemp [] (paprikaFileNameOf (resolveName m2))
        (jsonDumps (mela_to_paprika (uid 0) (created 0) m1)) =
        [(paprikaFileNameOf (resolveName m2),
          jsonDumps (mela_to_paprika (uid 0) (created 0) m1))] from rfl]
    simp [writeTemp]
  have hdisc : discover (.dir [⟨n1, some m1, false⟩, ⟨n2, some m2, false⟩]) =
      some [⟨n1, some m1, false⟩, ⟨n2, some m2, false⟩] := by
    simp [discover, List.filter_cons, h1, h2]
  have hbody : convertBody uid created stamp
      (.dir [⟨n1, some m1, false⟩, ⟨n2, some m2, false⟩]) =
      ⟨.ok (some (stamp ++ ".paprikarecipes")),
       some (stamp ++ ".paprikarecipes",
         [(paprikaFileNameOf (resolveName m2),
           jsonDumps (mela_to_paprika (uid 1) (created 1) m2)),
          (paprikaFileNameOf (resolveName m2),
           jsonDumps (mela_to_paprika (uid 1) (created 1) m2))]),
       [(paprikaFileNameOf (resolveName m2),
         jsonDumps (mela_to_paprika (uid 1) (created 1) m2))]⟩ := by
    rw [convertBody, hdisc]
    simp [hloop, create_paprika_bundle, bundleNameFor, List.lookup,
      beq_self_eq_true]
  refine ⟨?_, by simpa using hne⟩
  rw [convert_mela_to_paprika, applyFinally, hbody]

/-- C5 witness: two records both named Chili, with differing notes. -/
theorem claim_C5_witness :
    (convert_mela_to_paprika uidW createdW "S"
      (.dir [⟨"a.melarecipe", some chiliFirst, false⟩,
             ⟨"b.melarecipe", some chiliSecond, false⟩])).bundle =
      some ("S" ++ ".paprikarecipes",
        [(paprikaFileNameOf (resolveName chiliSecond),
          jsonDumps (mela_to_paprika (uidW 1) (createdW 1) chiliSecond)),
         (paprikaFileNameOf (resolveName chiliSecond),
          jsonDumps (mela_to_paprika (uidW 1) (createdW 1) chiliSecond))]) :=
  (claim_C5_collision_last_writer_wins uidW createdW "S" "a.melarecipe"
    "b.melarecipe" chiliFirst chiliSecond (by decide) (by decide) (by decide)
    (by decide)).1

/-- `unhex` inverts `Nat.digitChar` on hex digit values. -/
theorem unhex_digitChar : ∀ n, n < 16 → unhex (Nat.digitChar n) = some n := by
  decide

/-- Decoding an escaped character stream recovers the original characters:
the string-literal body parser inverts the serializer's escaping, leaving
the input after the closing quote untouched. -/
theorem parseStringBody_escape (s : List Char) (k : List Char) :
    parseStringBody (s.flatMap escChar ++ '"' :: k) = some (s, k) := by
  induction s generalizing k with
  | nil =>
    unfold parseStringBody
    simp
  | cons c s ih =>
    rw [List.flatMap_cons, List.append_assoc]
    by_cases hq : c = '"'
    · subst hq
      rw [show escChar '"' = ['\\', '"'] from rfl]
      unfold parseStringBody
      simp [escUnmap, ih]
    · by_cases hbs : c = '\\'
      · subst hbs
        rw [show escChar '\\' = ['\\', '\\'] from rfl]
        unfold parseStringBody
        simp [escUnmap, ih]
      · by_cases hn : c = '\n'
        · subst hn
          rw [show escChar '\n' = ['\\', 'n'] from rfl]
          unfold parseStringBody
          simp [escUnmap, ih]
        · by_cases htb : c = '\t'
          · subst htb
            rw [show escChar '\t' = ['\\', 't'] from rfl]
            unfold parseStringBody
            simp [escUnmap, ih]
          · by_cases hr : c = '\r'
            · subst hr
              rw [show escChar '\r' = ['\\', 'r'] from rfl]
              unfold parseStringBody
              simp [escUnmap, ih]
            · by_cases h8 : c.toNat = 8
              · have he : escChar c = ['\\', 'b'] := by
                  rw [escChar, if_neg hq, if_neg hbs, if_neg hn, if_neg htb,
                    if_neg hr, if_pos h8]
                rw [he]
                have hc : Char.ofNat 8 = c := by rw [← h8, Char.ofNat_toNat]
                unfold parseStringBody
                simp [escUnmap, ih]
                exact hc
              · by_cases h12 : c.toNat = 12
                · have he : escChar c = ['\\', 'f'] := by
                    rw [escChar, if_neg hq, if_neg hbs, if_neg hn, if_neg htb,
                      if_neg hr, if_neg h8, if_pos h12]
                  rw [he]
                  have hc : Char.ofNat 12 = c := by
                    rw [← h12, Char.ofNat_toNat]
                  unfold parseStringBody
                  simp [escUnmap, ih]
                  exact hc
                · by_cases h32 : c.toNat < 32
                  · have he : escChar c = ['\\', 'u', '0', '0',
                        Nat.digitChar (c.toNat / 16),
                        Nat.digitChar (c.toNat % 16)] := by
                      rw [escChar, if_neg hq, if_neg hbs, if_neg hn,
                        if_neg htb, if_neg hr, if_neg h8, if_neg h12,
                        if_pos h32]
                    rw [he]
                    have hu1 : unhex (Nat.digitChar (c.toNat / 16)) =
                        some (c.toNat / 16) := unhex_digitChar _ (by omega)
                    have hu2 : unhex (Nat.digitChar (c.toNat % 16)) =
                        some (c.toNat % 16) := unhex_digitChar _ (by omega)
                    have hval : Char.ofNat
                        (((0 * 16 + 0) * 16 + c.toNat / 16) * 16 +
                          c.toNat % 16) = c := by
                      rw [show ((0 * 16 + 0) * 16 + c.toNat / 16) * 16 +
                          c.toNat % 16 = c.toNat from by omega,
                        Char.ofNat_toNat]
                    unfold parseStringBody
                    simp [hu1, hu2, hval, ih,
                      show unhex '0' = some 0 from rfl]
                    rw [show c.toNat / 16 * 16 + c.toNat % 16 = c.toNat from
                      by omega, Char.ofNat_toNat]
                  · have he : escChar c = [c] := by
                      rw [escChar, if_neg hq, if_neg hbs, if_neg hn,
                        if_neg htb, if_neg hr, if_neg h8, if_neg h12,
                        if_neg h32]
                    rw [he]
                    unfold parseStringBody
                    simp [hq, hbs, ih]

/-- Rebuilding a string from its characters. -/
theorem mk_toList (s : String) : String.mk s.toList = s := rfl

/-- A serialized string literal is never empty. -/
theorem one_le_length_dumpString (s : String) : 1 ≤ (dumpString s).length :=
  Nat.succ_le_succ (Nat.zero_le _)

/-- A serialized object member is never empty. -/
theorem one_le_length_dumpMember (kv : String × PVal) :
    1 ≤ (dumpMember kv).length := by
  rw [dumpMember]
  simp [dumpString]

/-- Joining one serialized piece per element yields at least one character
per element, so the element count bounds the serialized length. -/
theorem length_le_joinWith {α : Type} (f : α → List Char) (sep : List Char)
    (hf : ∀ x, 1 ≤ (f x).length) :
    ∀ l : List α, l.length ≤ (joinWith sep (l.map f)).length
  | [] => Nat.zero_le _
  | [x] => by simpa [joinWith] using hf x
  | x :: y :: t => by
    have ih := length_le_joinWith f sep hf (y :: t)
    have hx := hf x
    simp only [List.map_cons, joinWith, List.length_append,
      List.length_cons] at *
    omega

/-- The element parser inverts the serializer on a non-empty string array,
given fuel at least the element count. -/
theorem parseElems_dump : ∀ (l : List String) (fuel : Nat) (k : List Char),
    l ≠ [] → l.length ≤ fuel →
    parseElems fuel (joinWith [',', ' '] (l.map dumpString) ++ ']' :: k) =
      some (l, k) := by
  intro l
  induction l with
  | nil => intro fuel k h _; exact absurd rfl h
  | cons x t ih =>
    intro fuel k _ hlen
    cases fuel with
    | zero => simp at hlen
    | succ f =>
      cases t with
      | nil =>
        rw [List.map_cons, List.map_nil,
          show joinWith [',', ' '] [dumpString x] = dumpString x from rfl,
          dumpString]
        simp only [List.cons_append, List.append_assoc, List.singleton_append]
        unfold parseElems
        simp [parseStringBody_escape, mk_toList]
      | cons y t2 =>
        rw [List.map_cons,
          show joinWith [',', ' ']
              (dumpString x :: (y :: t2).map dumpString) =
            dumpString x ++ [',', ' '] ++
              joinWith [',', ' '] ((y :: t2).map dumpString) from rfl,
          dumpString]
        simp only [List.cons_append, List.append_assoc, List.singleton_append,
          List.nil_append]
        have ht : (y :: t2) ≠ [] := by simp
        have hl2 : (y :: t2).length ≤ f := by
          simp only [List.length_cons] at hlen ⊢
          omega
        have helems := ih f k ht hl2
        rw [List.map_cons] at helems
        unfold parseElems
        simp [parseStringBody_escape, mk_toList, helems]

/-- The value parser inverts the serializer on every value shape the
converter emits, provided the following input does not begin with a digit
(in the serialized record it begins with a comma or a closing brace). -/
theorem parseVal_dump (v : PVal) (k : List Char) (hv : ValOk v)
    (hk : headNotDigit k) :
    parseVal (dumpVal v ++ k) = some (v, k) := by
  cases v with
  | str s =>
    rw [dumpVal, dumpString]
    simp only [List.cons_append, List.append_assoc, List.singleton_append]
    unfold parseVal
    simp [parseStringBody_escape, mk_toList]
  | num n =>
    have hn : n = 0 := hv
    subst hn
    rw [show dumpVal (PVal.num 0) = ['0'] from rfl]
    unfold parseVal
    cases k with
    | nil => simp [List.takeWhile, List.dropWhile]
    | cons c k2 =>
      have hcd : c.isDigit = false := hk
      simp [List.takeWhile_cons, List.dropWhile_cons, hcd]
  | nullv =>
    rw [dumpVal]
    unfold parseVal
    simp
  | arr l =>
    cases l with
    | nil =>
      rw [dumpVal]
      unfold parseVal
      simp [joinWith]
    | cons x t =>
      obtain ⟨Z, hZ⟩ : ∃ Z, joinWith [',', ' ']
          ((x :: t).map dumpString) = '"' :: Z := by
        cases t with
        | nil => exact ⟨x.toList.flatMap escChar ++ ['"'], rfl⟩
        | cons y t2 =>
          exact ⟨(x.toList.flatMap escChar ++ ['"']) ++ [',', ' '] ++
            joinWith [',', ' '] ((y :: t2).map dumpString), by
              simp [joinWith, dumpString, List.map_cons]⟩
      have hfuel : (x :: t).length ≤
          (joinWith [',', ' '] ((x :: t).map dumpString) ++ ']' :: k).length := by
        have hj := length_le_joinWith dumpString [',', ' ']
          one_le_length_dumpString (x :: t)
        simp only [List.length_append] at *
        omega
      have helems := parseElems_dump (x :: t)
        ((joinWith [',', ' '] ((x :: t).map dumpString) ++ ']' :: k).length)
        k (by simp) hfuel
      rw [dumpVal]
      rw [show ('[' :: (joinWith [',', ' '] ((x :: t).map dumpString) ++
          [']'])) ++ k = '[' :: ('"' :: (Z ++ ']' :: k)) from by
        rw [hZ]; simp]
      show (match parseElems ('"' :: (Z ++ ']' :: k)).length
          ('"' :: (Z ++ ']' :: k)) with
        | some (l, r) => some (PVal.arr l, r)
        | none => none) = some (PVal.arr (x :: t), k)
      rw [show ('"' :: (Z ++ ']' :: k) : List Char) =
          joinWith [',', ' '] ((x :: t).map dumpString) ++ ']' :: k from by
        rw [hZ]; simp]
      rw [helems]

/-- The member parser inverts the serializer on a non-empty record, given
fuel at least the member count and the value shapes the converter emits. -/
theorem parseMembers_dump :
    ∀ (r : List (String × PVal)) (fuel : Nat) (k : List Char),
    r ≠ [] → r.length ≤ fuel → (∀ kv ∈ r, ValOk kv.2) →
    parseMembers fuel (joinWith [',', ' '] (r.map dumpMember) ++ '}' :: k) =
      some (r, k) := by
  intro r
  induction r with
  | nil => intro fuel k h _ _; exact absurd rfl h
  | cons kv t ih =>
    intro fuel k _ hlen hok
    obtain ⟨k1, v1⟩ := kv
    have hv1 : ValOk v1 := hok (k1, v1) (List.mem_cons_self _ _)
    cases fuel with
    | zero => simp at hlen
    | succ f =>
      cases t with
      | nil =>
        rw [List.map_cons, List.map_nil,
          show joinWith [',', ' '] [dumpMember (k1, v1)] =
            dumpMember (k1, v1) from rfl, dumpMember, dumpString]
        simp only [List.cons_append, List.append_assoc, List.singleton_append,
          List.nil_append]
        have hval := parseVal_dump v1 ('}' :: k) hv1 rfl
        unfold parseMembers
        simp [parseStringBody_escape, mk_toList, hval]
      | cons kv2 t2 =>
        rw [List.map_cons,
          show joinWith [',', ' ']
              (dumpMember (k1, v1) :: (kv2 :: t2).map dumpMember) =
            dumpMember (k1, v1) ++ [',', ' '] ++
              joinWith [',', ' '] ((kv2 :: t2).map dumpMember) from rfl,
          dumpMember, dumpString]
        simp only [List.cons_append, List.append_assoc, List.singleton_append,
          List.nil_append]
        have ht : (kv2 :: t2) ≠ [] := by simp
        have hl2 : (kv2 :: t2).length ≤ f := by
          simp only [List.length_cons] at hlen ⊢
          omega
        have hok2 : ∀ kv ∈ kv2 :: t2, ValOk kv.2 := fun kv hm =>
          hok kv (List.mem_cons_of_mem _ hm)
        have hmem := ih f k ht hl2 hok2
        rw [List.map_cons] at hmem
        have hval := parseVal_dump v1 (',' :: ' ' ::
          (joinWith [',', ' '] (dumpMember kv2 :: t2.map dumpMember) ++
            '}' :: k)) hv1 rfl
        unfold parseMembers
        simp [parseStringBody_escape, mk_toList, hval, hmem]

/-- Parsing the serialized record recovers it exactly (the `json.loads`
inverse of `json.dumps` on the emitted shape). -/
theorem jsonLoads_dumps (r : List (String × PVal))
    (hok : ∀ kv ∈ r, ValOk kv.2) :
    jsonLoads (jsonDumps r) = some r := by
  cases r with
  | nil => rfl
  | cons kv t =>
    obtain ⟨k1, v1⟩ := kv
    obtain ⟨Z, hZ⟩ : ∃ Z, joinWith [',', ' ']
        (((k1, v1) :: t).map dumpMember) = '"' :: Z := by
      cases t with
      | nil =>
        refine ⟨((k1.toList.flatMap escChar ++ ['"']) ++ [':', ' ']) ++
          dumpVal v1, ?_⟩
        simp [joinWith, dumpMember, dumpString]
      | cons kv2 t2 =>
        refine ⟨(((k1.toList.flatMap escChar ++ ['"']) ++ [':', ' ']) ++
          dumpVal v1) ++ ([',', ' '] ++
          joinWith [',', ' '] ((kv2 :: t2).map dumpMember)), ?_⟩
        simp [joinWith, dumpMember, dumpString]
    have hfuel : ((k1, v1) :: t).length ≤
        (joinWith [',', ' '] (((k1, v1) :: t).map dumpMember) ++
          '}' :: ([] : List Char)).length := by
      have hj := length_le_joinWith dumpMember [',', ' ']
        one_le_length_dumpMember ((k1, v1) :: t)
      simp only [List.length_append] at *
      omega
    have hmem := parseMembers_dump ((k1, v1) :: t)
      ((joinWith [',', ' '] (((k1, v1) :: t).map dumpMember) ++
        '}' :: ([] : List Char)).length) [] (by simp) hfuel hok
    rw [show jsonDumps ((k1, v1) :: t) =
        String.mk ('{' :: ('"' :: (Z ++ '}' :: ([] : List Char)))) from by
      rw [jsonDumps, hZ]; simp]
    show (match parseMembers ('"' :: (Z ++ '}' :: ([] : List Char))).length
        ('"' :: (Z ++ '}' :: ([] : List Char))) with
      | some (r, []) => some r
      | _ => none) = some ((k1, v1) :: t)
    rw [show ('"' :: (Z ++ '}' :: ([] : List Char)) : List Char) =
        joinWith [',', ' '] (((k1, v1) :: t).map dumpMember) ++
          '}' :: ([] : List Char) from by rw [hZ]; simp]
    rw [hmem]

/-- Every value the mapper emits is of an invertible shape (its only
number is the rating `0`). -/
theorem mela_to_paprika_valOk (u c : String) (m : MelaRecipe) :
    ∀ kv ∈ mela_to_paprika u c m, ValOk kv.2 := by
  have hall : (mela_to_paprika u c m).all
      (fun kv => match kv.2 with
        | PVal.num n => n == 0
        | _ => true) = true := by
    rcases hm : m.images with _ | _ | (_ | ⟨img, l⟩) <;>
      simp [mela_to_paprika, ListField.get, hm]
  intro kv hkv
  have hv := List.all_eq_true.mp hall kv hkv
  rcases kv with ⟨k0, v0⟩
  rcases v0 with s | n | _ | l
  · trivial
  · exact beq_iff_eq.mp hv
  · trivial
  · trivial

/-- C8: encoding a mapped Target Record to the compressed single-record
file and then decompressing and parsing it reproduces the record
field-for-field; moreover the serializer never ASCII-escapes a non-ASCII
character (code points at or above 128 are emitted verbatim). -/
theorem claim_C8_roundtrip (u c : String) (m : MelaRecipe) :
    jsonLoads (gzipDecompress (create_paprika_file_content
      (mela_to_paprika u c m))) = some (mela_to_paprika u c m) ∧
    (∀ ch : Char, 128 ≤ ch.toNat → escChar ch = [ch]) := by
  constructor
  · exact jsonLoads_dumps _ (mela_to_paprika_valOk u c m)
  · intro ch hch
    have hq : ¬ ch = '"' := fun h => by
      rw [h] at hch; exact absurd hch (by decide)
    have hbs : ¬ ch = '\\' := fun h => by
      rw [h] at hch; exact absurd hch (by decide)
    have hn : ¬ ch = '\n' := fun h => by
      rw [h] at hch; exact absurd hch (by decide)
    have htb : ¬ ch = '\t' := fun h => by
      rw [h] at hch; exact absurd hch (by decide)
    have hr : ¬ ch = '\r' := fun h => by
      rw [h] at hch; exact absurd hch (by decide)
    rw [escChar, if_neg hq, if_neg hbs, if_neg hn, if_neg htb, if_neg hr,
      if_neg (by omega : ¬ ch.toNat = 8), if_neg (by omega : ¬ ch.toNat = 12),
      if_neg (by omega : ¬ ch.toNat < 32)]

/-- C8 witness: a record with a non-ASCII name, and the non-ASCII letter
e-acute emitted unescaped. -/
theorem claim_C8_witness :
    jsonLoads (gzipDecompress (create_paprika_file_content
      (mela_to_paprika "U" "T" cremeRecipe))) =
      some (mela_to_paprika "U" "T" cremeRecipe) ∧ escChar 'é' = ['é'] :=
  ⟨(claim_C8_roundtrip "U" "T" cremeRecipe).1,
   (claim_C8_roundtrip "U" "T" cremeRecipe).2 'é' (by decide)⟩

end MelaPaprika
